import Mathlib

/-!
Shallow embedding of the kozen-secret backend-dispatch and encryption
subsystem: the SecretManager facade (src/services/SecretManager.ts), the
MongoDB CSFLE backend (src/services/SecretManagerMDB.ts) and the AWS
read-only backend (src/services/SecretManagerAWS.ts).  Thrown exceptions
are modelled with Except, process state with explicit record passing, and
JavaScript truthiness of optional strings with explicit helpers.
-/

namespace KozenSecret

/-! Log records produced through the structured logger. -/

inductive Severity where
  | info
  | warn
  | error
deriving Repr, DecidableEq

structure LogEntry where
  severity : Severity
  src : String
  message : String
deriving Repr, DecidableEq

def errCount (l : List LogEntry) : Nat :=
  (l.filter (fun e => e.severity == Severity.error)).length

def mkErrLog (src msg : String) : LogEntry :=
  ⟨Severity.error, src, msg⟩

def mkWarnLog (src msg : String) : LogEntry :=
  ⟨Severity.warn, src, msg⟩

/-- Process environment: process.env lookups. -/
abbrev Env := String → Option String

/-- Values held in a secret document: either a plain string or a
ciphertext produced by ClientEncryption.encrypt, modelled as the
data-encryption-key id, the algorithm name and the wrapped plaintext
(decryption is projection back to the plaintext). -/
inductive StoredValue where
  | str (s : String)
  | cipher (keyId : Nat) (alg : String) (plain : String)
deriving Repr, DecidableEq

/-! Configuration records: ISecretManagerOptions from src/models/Secret.ts.
Optional TypeScript fields are Option; an absent field is none. -/

structure CloudOpt where
  region : Option String := none
  accessKeyId : Option String := none
  secretAccessKey : Option String := none
deriving Repr, DecidableEq

structure MdbOpt where
  uri : Option String := none
  database : Option String := none
  collection : Option String := none
  algorithm : Option String := none
  key : Option String := none
  keyAltName : Option String := none
  source : Option String := none
deriving Repr, DecidableEq

structure SMOptions where
  flow : Option String := none
  type : Option String := none
  cloud : Option CloudOpt := none
  mdb : Option MdbOpt := none
deriving Repr, DecidableEq

/-- JavaScript truthiness of an optional string: undefined and the empty
string are falsy. -/
def truthyStr : Option String → Bool
  | some s => s != ""
  | none => false

/-- JavaScript a || b on optional strings. -/
def jsOr (a b : Option String) : Option String :=
  if truthyStr a then a else b

/-- JavaScript a || d where d is a literal default string. -/
def jsOrD (a : Option String) (d : String) : String :=
  match a with
  | some s => if s = "" then d else s
  | none => d

/-- Char-wise lowercasing, the behavior of toLowerCase on the ASCII
backend identifiers this system dispatches on (chosen over the library
String.toLower, which is extensionally the same map but is not reducible
by the kernel). -/
def toLowerM (s : String) : String :=
  ⟨s.data.map Char.toLower⟩

/-- One field of a JavaScript object spread: the override key wins when
present, otherwise the base key survives. -/
def ovr (base o : Option α) : Option α :=
  match o with
  | some v => some v
  | none => base

/-- Spread merge of the nested cloud objects, as in
SecretManager.configure: this._options.cloud = spread of base and override. -/
def mergeCloud (a b : Option CloudOpt) : CloudOpt :=
  let x := a.getD {}
  let y := b.getD {}
  { region := ovr x.region y.region
    accessKeyId := ovr x.accessKeyId y.accessKeyId
    secretAccessKey := ovr x.secretAccessKey y.secretAccessKey }

/-- Spread merge of the nested mdb objects, as in SecretManager.configure. -/
def mergeMdb (a b : Option MdbOpt) : MdbOpt :=
  let x := a.getD {}
  let y := b.getD {}
  { uri := ovr x.uri y.uri
    database := ovr x.database y.database
    collection := ovr x.collection y.collection
    algorithm := ovr x.algorithm y.algorithm
    key := ovr x.key y.key
    keyAltName := ovr x.keyAltName y.keyAltName
    source := ovr x.source y.source }

/-- SecretManager.configure (src/services/SecretManager.ts lines 58-64):
type and flow merge with JavaScript or-fallback, cloud and mdb merge with
object spread and always become present objects. -/
def configureOpts (st : Option SMOptions) (o : SMOptions) : SMOptions :=
  let base := st.getD {}
  { type := jsOr o.type base.type
    flow := jsOr o.flow base.flow
    cloud := some (mergeCloud base.cloud o.cloud)
    mdb := some (mergeMdb base.mdb o.mdb) }

/-- Top-level shallow spread of two possibly-undefined option objects, as
used at the call sites of the form spread of this.options and the per-call
override: nested objects are replaced wholesale, not merged key by key. -/
def mergeTop (a b : Option SMOptions) : SMOptions :=
  let x := a.getD {}
  let y := b.getD {}
  { flow := ovr x.flow y.flow
    type := ovr x.type y.type
    cloud := ovr x.cloud y.cloud
    mdb := ovr x.mdb y.mdb }

/-! The MongoDB backend (src/services/SecretManagerMDB.ts).  Collections
hold secret documents (key, value, encrypted) and data-encryption-key
documents (id, keyAltNames); the two shapes are kept in separate lists of
one collection record since the two queries of the code match disjoint
document shapes. -/

structure SecretDoc where
  key : String
  value : StoredValue
  encrypted : Bool
deriving Repr, DecidableEq

structure DekDoc where
  id : Nat
  keyAltNames : List String
deriving Repr, DecidableEq

structure Coll where
  secrets : List SecretDoc := []
  deks : List DekDoc := []
deriving Repr, DecidableEq

/-- State of one SecretManagerMDB instance plus the database it talks to:
the stored options, the lazily initialized client and encryption handles
(the encryption handle records the keyVaultNamespace it was built with),
the collections addressed by a namespace string, a fresh-id counter for
data-encryption keys, counters of ClientEncryption.createDataKey calls and
of findOne calls, and the emitted log records. -/
structure MdbState where
  options : Option SMOptions := none
  client : Bool := false
  encryption : Option String := none
  cols : String → Coll := fun _ => {}
  nextDek : Nat := 0
  created : Nat := 0
  finds : Nat := 0
  logs : List LogEntry := []

/-- Namespace addressed by client.db(database).collection(collection). -/
def mkNs (db : Option String) (coll : String) : String :=
  db.getD "__default__" ++ "." ++ coll

/-- SecretManagerMDB.getkeyVaultNamespace applied to the destructured mdb
options: database or db, dot, collection or keyVault, with JavaScript
or-fallbacks. -/
def keyVaultNs (m : Option MdbOpt) : String :=
  jsOrD (m.bind (fun x => x.database)) "db" ++ "." ++
    jsOrD (m.bind (fun x => x.collection)) "keyVault"

/-- SecretManagerMDB.initClient: requires a truthy mdb uri, creates the
client when absent and the encryption handle when absent (capturing the
key-vault namespace of the options in force at that moment). -/
def initClient (st : MdbState) (options : Option SMOptions) : Except String MdbState :=
  match (match options with
         | some o => some o
         | none => st.options) with
  | none => .error "TypeError: cannot destructure mdb of undefined options"
  | some o =>
    if truthyStr (o.mdb.bind (fun m => m.uri)) = false then
      .error "The MongoDB URI is required to initialize the MongoDB Secrets Manager."
    else
      let st1 := if st.client then st else { st with client := true }
      let st2 :=
        if st1.encryption.isSome then st1
        else { st1 with encryption := some (keyVaultNs o.mdb) }
      .ok st2

/-- SecretManagerMDB.getKeyAlt: keyAltName, else env KOZEN_SM_ALT, else
the derived database-collection.alt template, with JavaScript
or-fallbacks over the options argument or the stored options. -/
def getKeyAlt (st : MdbState) (options : Option SMOptions) (env : Env) : Except String String :=
  match (match options with
         | some o => some o
         | none => st.options) with
  | none => .error "TypeError: cannot destructure mdb of undefined options"
  | some o =>
    let m := o.mdb
    .ok (jsOrD (m.bind (fun x => x.keyAltName))
          (jsOrD (env "KOZEN_SM_ALT")
            (jsOrD (m.bind (fun x => x.database)) "db" ++ "-" ++
              jsOrD (m.bind (fun x => x.collection)) "co" ++ ".alt")))

/-- findOne on the secret documents of a collection, by key. -/
def findSecret (c : Coll) (k : String) : Option SecretDoc :=
  c.secrets.find? (fun d => d.key == k)

/-- findOne on the data-encryption-key documents of a collection, by
membership of the alternate name in keyAltNames. -/
def findDek (c : Coll) (alt : String) : Option DekDoc :=
  c.deks.find? (fun d => decide (alt ∈ d.keyAltNames))

/-- ClientEncryption.createDataKey: mints a fresh nonzero id, appends the
key document to the key-vault namespace captured by the encryption handle
and bumps the creation counter; a missing encryption handle is a thrown
TypeError. -/
def doCreateDek (st : MdbState) (altName : String) : Except String Nat × MdbState :=
  match st.encryption with
  | none => (.error "TypeError: cannot read createDataKey of null", st)
  | some vns =>
    let id := st.nextDek + 1
    (.ok id,
     { st with
        nextDek := id
        created := st.created + 1
        cols := fun n =>
          if n = vns then
            { st.cols vns with deks := (st.cols vns).deks ++ [⟨id, [altName]⟩] }
          else st.cols n })

/-- Existing-key query and conditional creation of
SecretManagerMDB.createDataKey (lines 193-197): the collection handle for
the existing-key query exists only when the per-call options carry truthy
mdb database and collection fields; a found document with a truthy id is
reused, otherwise creation is requested. -/
def createDataKeyStep (st : MdbState) (options : Option SMOptions) (altName : String) :
    Except String Nat × MdbState :=
  let dbv := (options.bind (fun o => o.mdb)).bind (fun m => m.database)
  let cov := (options.bind (fun o => o.mdb)).bind (fun m => m.collection)
  if truthyStr dbv && truthyStr cov then
    if st.client = false then
      (.error "TypeError: cannot read db of null", st)
    else
      let ns := mkNs dbv (cov.getD "")
      let st1 := { st with finds := st.finds + 1 }
      match findDek (st1.cols ns) altName with
      | some d => if d.id ≠ 0 then (.ok d.id, st1) else doCreateDek st1 altName
      | none => doCreateDek st1 altName
  else
    doCreateDek st altName

/-- SecretManagerMDB.createDataKey (lines 191-208): computes the alternate
name, runs the query-or-create step, and logs a warning record on
success. -/
def createDataKey (st : MdbState) (options : Option SMOptions) (env : Env) :
    Except String Nat × MdbState :=
  match getKeyAlt st options env with
  | .error e => (.error e, st)
  | .ok altName =>
    match createDataKeyStep st options altName with
    | (.error e, st1) => (.error e, st1)
    | (.ok id, st1) =>
      (.ok id,
       { st1 with logs := st1.logs ++ [mkWarnLog "Secret:Service:MDB:createDataKey" "Create Data Key"] })

/-- updateOne with upsert by key: the first matching secret document is
rewritten, else a fresh document is appended. -/
def upsertList (k : String) (v : StoredValue) : List SecretDoc → List SecretDoc
  | [] => []
  | d :: ds =>
    if d.key == k then { d with value := v, encrypted := true } :: ds
    else d :: upsertList k v ds

def upsertSecret (c : Coll) (k : String) (v : StoredValue) : Coll :=
  if c.secrets.any (fun d => d.key == k) then
    { c with secrets := upsertList k v c.secrets }
  else
    { c with secrets := c.secrets ++ [⟨k, v, true⟩] }

/-- Body of the try block of SecretManagerMDB.resolve (lines 53-89), after
the stored options have been updated with the per-call override. -/
def mdbResolveBody (st : MdbState) (key : String) : Except String (Option StoredValue) × MdbState :=
  match st.options with
  | none => (.error "TypeError: cannot destructure mdb of undefined options", st)
  | some o =>
    match o.mdb with
    | none => (.error "MongoDB configuration is missing in SecretManager options.", st)
    | some m =>
      match initClient st (some o) with
      | .error e => (.error e, st)
      | .ok st1 =>
        if truthyStr m.collection = false then
          (.error "MongoDB collection is not defined.", st1)
        else
          let ns := mkNs m.database (m.collection.getD "")
          let st2 := { st1 with finds := st1.finds + 1 }
          match findSecret (st2.cols ns) key with
          | none =>
            (.ok none,
             { st2 with logs := st2.logs ++ [mkWarnLog "Secret:Service:MDB:resolve" ("Secret not found: " ++ key)] })
          | some doc =>
            if doc.encrypted && st2.encryption.isSome then
              match doc.value with
              | .cipher _ _ p => (.ok (some (.str p)), st2)
              | .str _ => (.error "decrypt of a non-encrypted payload failed", st2)
            else
              (.ok (some doc.value), st2)

/-- SecretManagerMDB.resolve: merges a provided per-call override into the
stored options with a top-level shallow spread, runs the body, and on any
thrown error logs it and rethrows. -/
def mdbResolve (st : MdbState) (key : String) (options : Option SMOptions) (_env : Env) :
    Except String (Option StoredValue) × MdbState :=
  let st0 :=
    match options with
    | some o => { st with options := some (mergeTop st.options (some o)) }
    | none => st
  match mdbResolveBody st0 key with
  | (.ok v, st1) => (.ok v, st1)
  | (.error e, st1) =>
    (.error e,
     { st1 with logs := st1.logs ++ [mkErrLog "Secret:Service:MDB:resolve" ("Failed to retrieve secret " ++ key ++ ". " ++ e)] })

/-- Body of the try block of SecretManagerMDB.save (lines 112-142): after
validation and lazy initialization, the value is encrypted under the key
returned by createDataKey called with the raw per-call options, and the
ciphertext document is upserted by key. -/
def mdbSaveBody (st : MdbState) (key : String) (value : String) (options : Option SMOptions)
    (env : Env) : Except String Bool × MdbState :=
  match st.options with
  | none => (.error "TypeError: cannot destructure mdb of undefined options", st)
  | some o =>
    match o.mdb with
    | none => (.error "MongoDB configuration is missing in SecretManager options.", st)
    | some m =>
      match initClient st (some o) with
      | .error e => (.error e, st)
      | .ok st1 =>
        if truthyStr m.collection = false then
          (.error "MongoDB collection is not defined.", st1)
        else
          let ns := mkNs m.database (m.collection.getD "")
          match st1.encryption with
          | none => (.error "TypeError: cannot read encrypt of null", st1)
          | some _ =>
            match createDataKey st1 options env with
            | (.error e, st2) => (.error e, st2)
            | (.ok dekId, st2) =>
              let cipherVal :=
                StoredValue.cipher dekId (jsOrD m.algorithm "AEAD_AES_256_CBC_HMAC_SHA_512-Random") value
              (.ok true,
               { st2 with
                  cols := fun n =>
                    if n = ns then upsertSecret (st2.cols ns) key cipherVal else st2.cols n })

/-- SecretManagerMDB.save: merges a provided per-call override into the
stored options with a top-level shallow spread, runs the body, and on any
thrown error logs it and rethrows. -/
def mdbSave (st : MdbState) (key : String) (value : String) (options : Option SMOptions)
    (env : Env) : Except String Bool × MdbState :=
  let st0 :=
    match options with
    | some o => { st with options := some (mergeTop st.options (some o)) }
    | none => st
  match mdbSaveBody st0 key value options env with
  | (.ok b, st1) => (.ok b, st1)
  | (.error e, st1) =>
    (.error e,
     { st1 with logs := st1.logs ++ [mkErrLog "Secret:Service:MDB:save" ("Failed to store secret " ++ key ++ ". " ++ e)] })

/-! The AWS backend (src/services/SecretManagerAWS.ts).  Only save is
needed by the claims: it is a single unconditional throw. -/

/-- External managed store plus logs, the state the AWS backend could
touch. -/
structure AwsWorld where
  store : String → Option String := fun _ => none
  logs : List LogEntry := []

/-- SecretManagerAWS.save (lines 61-63): unconditionally throws, touching
nothing. -/
def awsSave (st : AwsWorld) (_key : String) (_value : StoredValue)
    (_options : Option SMOptions) : Except String Bool × AwsWorld :=
  (.error "Save operation not implemented for AWS Secrets Manager", st)

/-! The facade (src/services/SecretManager.ts).  Backends are consumed
polymorphically through the ISecretManager contract; a backend is a pair
of resolve and save behaviors over the merged options. -/

structure BackendI where
  resolve : String → Option SMOptions → Except String (Option StoredValue) × List LogEntry
  save : String → StoredValue → Option SMOptions → Except String Bool × List LogEntry

/-- Modelled from the spec: the dependency-injection registry wiring that
backs BaseService.getDelegate (configs/ioc.json and the kozen engine are
not under src).  It maps the lowercased backend identifiers aws and mdb to
the registered implementations; an unknown identifier fails the lookup
with a thrown error. -/
def iocRegistry (awsB mdbB : BackendI) : String → Except String BackendI :=
  fun t =>
    if t = "aws" then .ok awsB
    else if t = "mdb" then .ok mdbB
    else .error ("Delegate not found: " ++ t)

/-- Body of the try block of SecretManager.getValue (lines 119-128):
dependency check, top-level shallow merge of stored options and override,
the type check against the stored options, delegate lookup by the merged
type lowered with an aws literal fallback, and the awaited delegate
resolve. -/
def getValueRawG (assistant : Bool) (reg : String → Except String BackendI)
    (stOpts : Option SMOptions) (key : String) (ov : Option SMOptions) :
    Except String (Option StoredValue) × List LogEntry :=
  if assistant = false then
    (.error "Incorrect dependency injection configuration.", [])
  else
    let merged := mergeTop stOpts ov
    if truthyStr (stOpts.bind (fun o => o.type)) = false then
      (.error "SecretManager options or type is not defined.", [])
    else
      match reg (toLowerM (jsOrD merged.type "aws")) with
      | .error e => (.error e, [])
      | .ok b => b.resolve key (some merged)

/-- SecretManager.getValue: the try body with its catch clause, which logs
the error and returns null. -/
def getValueG (assistant : Bool) (reg : String → Except String BackendI)
    (stOpts : Option SMOptions) (key : String) (ov : Option SMOptions) :
    Option StoredValue × List LogEntry :=
  match getValueRawG assistant reg stOpts key ov with
  | (.ok v, l) => (v, l)
  | (.error e, l) => (none, l ++ [mkErrLog "Secret:Service:Manager:getValue" e])

/-- SecretManager.resolve (lines 74-77): getValue, then the nullish
fallback to the environment variable literally named by the key. -/
def resolveG (assistant : Bool) (reg : String → Except String BackendI)
    (stOpts : Option SMOptions) (key : String) (ov : Option SMOptions) (env : Env) :
    Option StoredValue × List LogEntry :=
  let r := getValueG assistant reg stOpts key ov
  (match r.1 with
   | some v => some v
   | none => (env key).map StoredValue.str, r.2)

/-- SecretManager.save (lines 87-108): same checks and lookup as getValue
with errors caught into a false result, but the delegate save promise is
returned without await, so a delegate save rejection is not caught by the
catch clause and propagates. -/
def saveG (assistant : Bool) (reg : String → Except String BackendI)
    (stOpts : Option SMOptions) (key : String) (value : StoredValue) (ov : Option SMOptions) :
    Except String Bool × List LogEntry :=
  if assistant = false then
    (.ok false, [mkErrLog "Secret:Service:Manager:save" "Incorrect dependency injection configuration."])
  else
    let merged := mergeTop stOpts ov
    if truthyStr (stOpts.bind (fun o => o.type)) = false then
      (.ok false, [mkErrLog "Secret:Service:Manager:save" "SecretManager options or type is not defined."])
    else
      match reg (toLowerM (jsOrD merged.type "aws")) with
      | .error e => (.ok false, [mkErrLog "Secret:Service:Manager:save" e])
      | .ok b => b.save key value (some merged)

/-- SecretManager.getValue with the delegate registry instantiated to a
SecretManagerMDB instance, threading the backend state: the composition
exercised when the merged type dispatches to the mdb delegate (the aws
delegate and unknown identifiers both surface as a caught error here,
matching the facade catch clause). -/
def facadeGetValueMdb (assistant : Bool) (stOpts : Option SMOptions) (mst : MdbState)
    (key : String) (ov : Option SMOptions) (env : Env) :
    Option StoredValue × MdbState × List LogEntry :=
  if assistant = false then
    (none, mst, [mkErrLog "Secret:Service:Manager:getValue" "Incorrect dependency injection configuration."])
  else
    let merged := mergeTop stOpts ov
    if truthyStr (stOpts.bind (fun o => o.type)) = false then
      (none, mst, [mkErrLog "Secret:Service:Manager:getValue" "SecretManager options or type is not defined."])
    else
      if toLowerM (jsOrD merged.type "aws") = "mdb" then
        match mdbResolve mst key (some merged) env with
        | (.ok v, mst1) => (v, mst1, [])
        | (.error e, mst1) => (none, mst1, [mkErrLog "Secret:Service:Manager:getValue" e])
      else
        (none, mst, [mkErrLog "Secret:Service:Manager:getValue"
          ("Delegate not found: " ++ toLowerM (jsOrD merged.type "aws"))])

/-- SecretManager.resolve over the mdb-instantiated composition: getValue
then the nullish environment fallback. -/
def facadeResolveMdb (assistant : Bool) (stOpts : Option SMOptions) (mst : MdbState)
    (key : String) (ov : Option SMOptions) (env : Env) :
    Option StoredValue × MdbState × List LogEntry :=
  match facadeGetValueMdb assistant stOpts mst key ov env with
  | (v, mst1, l) =>
    (match v with
     | some x => some x
     | none => (env key).map StoredValue.str, mst1, l)

/-! Concrete instances used by witnesses and counterexamples. -/

def envEmpty : Env := fun _ => none

def awsB0 : BackendI :=
  ⟨fun _ _ => (.ok (some (.str "AWSVAL")), []), fun _ _ _ => (.ok true, [])⟩

def mdbB0 : BackendI :=
  ⟨fun _ _ => (.ok none, []), fun _ _ _ => (.ok true, [])⟩

def regBad : String → Except String BackendI := fun _ => .error "resolution failed"

def fNoType : SMOptions := {}

def fAzure : SMOptions := { type := some "azure" }

def fMdbT : SMOptions := { type := some "mdb" }

def ovEmptyType : SMOptions := { type := some "" }

def c5ovr : SMOptions := { type := some "" }

def c5noNested : SMOptions := { type := some "x" }

def c8Ovr : SMOptions := { mdb := some { collection := some "c2" } }

def c8Base : MdbState := { options := some {} }

def wMdb : MdbOpt := { uri := some "MONGO_URI", database := some "d", collection := some "c" }

def wOpts : SMOptions := { type := some "mdb", mdb := some wMdb }

def wState : MdbState := { options := some wOpts }

def wVaultColl : Coll := { secrets := [], deks := [⟨7, ["d-c.alt"]⟩] }

def wStateVault : MdbState :=
  { options := some wOpts, client := true, encryption := some "d.c",
    cols := fun n => if n = "d.c" then wVaultColl else {} }

def wStateEmptyVault : MdbState :=
  { options := some wOpts, client := true, encryption := some "d.c" }

end KozenSecret

namespace KozenSecret

/-! Helper lemmas shared by the claim theorems. -/

theorem ovr_self (a : Option α) : ovr a a = a := by
  cases a <;> rfl

theorem ovr_right_idem (b o : Option α) : ovr (ovr b o) o = ovr b o := by
  cases o <;> rfl

theorem jsOr_self (a : Option String) : jsOr a a = a := by
  by_cases h : truthyStr a = true <;> simp [jsOr, h]

theorem jsOr_right_absorb (o b : Option String) : jsOr o (jsOr o b) = jsOr o b := by
  by_cases h : truthyStr o = true <;> simp [jsOr, h]

theorem mergeTop_some_none (f : SMOptions) : mergeTop (some f) none = f := rfl

theorem initClient_some_ok (st : MdbState) (o : SMOptions)
    (h : truthyStr (o.mdb.bind (fun m => m.uri)) = true) :
    initClient st (some o) =
      .ok { st with client := true,
                    encryption := some (st.encryption.getD (keyVaultNs o.mdb)) } := by
  obtain ⟨opts, cl, enc, cols, nd, cr, fd, lg⟩ := st
  cases cl <;> cases enc <;> simp [initClient, h, Option.getD]

theorem find_upsertList (l : List SecretDoc) (k : String) (v : StoredValue)
    (h : l.any (fun d => d.key == k) = true) :
    ∃ kk, (upsertList k v l).find? (fun d => d.key == k) = some ⟨kk, v, true⟩ := by
  induction l with
  | nil => simp at h
  | cons d ds ih =>
    by_cases hd : (d.key == k) = true
    · exact ⟨d.key, by simp [upsertList, hd, List.find?_cons]⟩
    · have h2 : ds.any (fun x => x.key == k) = true := by
        simp [List.any_cons, hd] at h
        simpa using h
      obtain ⟨kk, hk⟩ := ih h2
      exact ⟨kk, by simp [upsertList, hd, List.find?_cons, hk]⟩

theorem findSecret_upsert (c : Coll) (k : String) (v : StoredValue) :
    ∃ kk, findSecret (upsertSecret c k v) k = some ⟨kk, v, true⟩ := by
  by_cases h : c.secrets.any (fun d => d.key == k) = true
  · obtain ⟨kk, hk⟩ := find_upsertList c.secrets k v h
    exact ⟨kk, by simp [upsertSecret, findSecret, h, hk]⟩
  · refine ⟨k, ?_⟩
    have hnone : c.secrets.find? (fun d => d.key == k) = none := by
      apply List.find?_eq_none.mpr
      intro x hx hpx
      exact h (List.any_eq_true.mpr ⟨x, hx, hpx⟩)
    simp [upsertSecret, findSecret, h, List.find?_append, hnone, List.find?]

/-- Claim C9: save on the managed (read-only, AWS) backend variant always
fails immediately by raising an error, never silently no-ops, and never
mutates any external state: awsSave returns the unimplemented-save error
and the untouched world, for every key, value and options. -/
theorem c9_aws_save_always_throws (st : AwsWorld) (k : String) (v : StoredValue)
    (o : Option SMOptions) :
    awsSave st k v o = (.error "Save operation not implemented for AWS Secrets Manager", st) :=
  rfl

/-- Claim C2: the facade resolve never raises.  For every delegate
registry and backend behavior, getValue equals the raw try-body result
with errors converted to a null value, a raw error adds exactly one error
log entry, and a null getValue makes resolve fall back to the environment
variable named by the key. -/
theorem c2_resolve_never_raises (a : Bool) (reg : String → Except String BackendI)
    (f : Option SMOptions) (k : String) (ov : Option SMOptions) (env : Env) :
    (getValueG a reg f k ov).1 = ((getValueRawG a reg f k ov).1.toOption.getD none)
    ∧ ((getValueRawG a reg f k ov).1.isOk = false →
        errCount (getValueG a reg f k ov).2 = errCount (getValueRawG a reg f k ov).2 + 1)
    ∧ ((getValueG a reg f k ov).1 = none →
        (resolveG a reg f k ov env).1 = (env k).map StoredValue.str) := by
  rcases h : getValueRawG a reg f k ov with ⟨r, l⟩
  cases r with
  | ok v =>
    refine ⟨by simp [getValueG, h, Except.toOption], ?_, ?_⟩
    · intro hk
      exact absurd hk (by simp [Except.isOk, Except.toBool])
    intro hv
    have hv2 : v = none := by simpa [getValueG, h] using hv
    simp [resolveG, getValueG, h, hv2]
  | error e =>
    refine ⟨by simp [getValueG, h, Except.toOption], ?_, ?_⟩
    · intro _
      simp [getValueG, h, errCount, List.filter_append, mkErrLog]
    · intro _
      simp [resolveG, getValueG, h]

/-- Witness for c2_resolve_never_raises at a registry whose delegate
lookup throws: the error is converted to a null value with one error log
entry and resolve falls through to the empty environment. -/
theorem c2_resolve_never_raises_witness :
    (getValueG true regBad (some fMdbT) "k1" none).1 = none
    ∧ errCount (getValueG true regBad (some fMdbT) "k1" none).2 = 1
    ∧ (resolveG true regBad (some fMdbT) "k1" none envEmpty).1 = none := by
  obtain ⟨h1, h2, h3⟩ := c2_resolve_never_raises true regBad (some fMdbT) "k1" none envEmpty
  refine ⟨?_, ?_, ?_⟩
  · rw [h1]; decide
  · rw [h2 (by decide)]; decide
  · rw [h3 (by rw [h1]; decide)]; decide

/-- Claim C5 counterexample: configure at base type mdb with override type
the empty string keeps the base type although the override field is
present, so override fields do not always win at the leaf level; and
merging an option set with itself is not the identity when its nested
objects are absent, since configure always materializes them. -/
theorem c5_counterexample :
    (c5ovr.type.isSome = true ∧ (configureOpts (some fMdbT) c5ovr).type ≠ c5ovr.type)
    ∧ configureOpts (some c5noNested) c5noNested ≠ c5noNested := by
  decide

/-- Claim C5 amended: applying configure twice with the same override
equals applying it once, and merging an option set with itself is the
identity whenever its nested cloud and mdb objects are present; override
leaves of the nested objects win whenever present and absent override
leaves let base siblings survive, while the scalar type field follows
JavaScript or-semantics, winning only when present and non-empty. -/
theorem c5_amended :
    (∀ b o, configureOpts (some (configureOpts b o)) o = configureOpts b o)
    ∧ (∀ a : SMOptions, a.cloud.isSome = true → a.mdb.isSome = true →
        configureOpts (some a) a = a)
    ∧ (∀ b o t, o.type = some t → t ≠ "" → (configureOpts b o).type = some t)
    ∧ (∀ b o, o.type = none → (configureOpts b o).type = (b.getD {}).type)
    ∧ (∀ b o y u, o.mdb = some y → y.uri = some u →
        ((configureOpts b o).mdb.getD {}).uri = some u)
    ∧ (∀ (b o : SMOptions) x y, b.mdb = some x → o.mdb = some y → y.database = none →
        ((configureOpts (some b) o).mdb.getD {}).database = x.database)
    ∧ (∀ (b o : SMOptions) x y, b.cloud = some x → o.cloud = some y → y.region = none →
        ((configureOpts (some b) o).cloud.getD {}).region = x.region) := by
  refine ⟨?_, ?_, ?_, ?_, ?_, ?_, ?_⟩
  · intro b o
    simp [configureOpts, jsOr_right_absorb, mergeCloud, mergeMdb, ovr_right_idem]
  · intro a hc hmdb
    obtain ⟨fl, ty, cl, md⟩ := a
    obtain ⟨c, rfl⟩ := Option.isSome_iff_exists.mp hc
    obtain ⟨m, rfl⟩ := Option.isSome_iff_exists.mp hmdb
    simp [configureOpts, jsOr_self, mergeCloud, mergeMdb, ovr_self]
  · intro b o t ht htne
    simp [configureOpts, jsOr, ht, truthyStr, htne]
  · intro b o ht
    simp [configureOpts, jsOr, ht, truthyStr]
  · intro b o y u hy hu
    simp [configureOpts, mergeMdb, hy, hu, ovr]
  · intro b o x y hx hy hd
    simp [configureOpts, mergeMdb, hx, hy, hd, ovr]
  · intro b o x y hx hy hr
    simp [configureOpts, mergeCloud, hx, hy, hr, ovr]

/-- Witness for c5_amended at concrete option sets: the override uri wins,
the un-overridden database sibling survives, and a non-empty override type
wins. -/
theorem c5_amended_witness :
    ((configureOpts (some { mdb := some { uri := some "A", database := some "D" } })
        { mdb := some { uri := some "B" } }).mdb.getD {}).uri = some "B"
    ∧ ((configureOpts (some { mdb := some { uri := some "A", database := some "D" } })
        { mdb := some { uri := some "B" } }).mdb.getD {}).database = some "D"
    ∧ (configureOpts (some fMdbT) { type := some "aws" }).type = some "aws" := by
  obtain ⟨h1, h2, h3, h4, h5, h6, h7⟩ := c5_amended
  refine ⟨?_, ?_, ?_⟩
  · exact h5 (some { mdb := some { uri := some "A", database := some "D" } })
      { mdb := some { uri := some "B" } } { uri := some "B" } "B" rfl rfl
  · exact h6 { mdb := some { uri := some "A", database := some "D" } }
      { mdb := some { uri := some "B" } } { uri := some "A", database := some "D" }
      { uri := some "B" } rfl rfl rfl
  · exact h3 (some fMdbT) { type := some "aws" } "aws" rfl (by decide)

/-- Claim C4: a backend-type identifier whose lowercased dispatch string
is mapped to no registered backend makes the facade getValue yield a null
result and the facade save yield false, each with exactly one error log
entry, for every pair of registered backends and every override. -/
theorem c4_unknown_backend (awsB mdbB : BackendI) (f : SMOptions) (k : String)
    (v : StoredValue) (ov : Option SMOptions)
    (ht : truthyStr f.type = true)
    (h1 : toLowerM (jsOrD (mergeTop (some f) ov).type "aws") ≠ "aws")
    (h2 : toLowerM (jsOrD (mergeTop (some f) ov).type "aws") ≠ "mdb") :
    (getValueG true (iocRegistry awsB mdbB) (some f) k ov).1 = none
    ∧ errCount (getValueG true (iocRegistry awsB mdbB) (some f) k ov).2 = 1
    ∧ (saveG true (iocRegistry awsB mdbB) (some f) k v ov).1 = .ok false
    ∧ errCount (saveG true (iocRegistry awsB mdbB) (some f) k v ov).2 = 1 := by
  refine ⟨?_, ?_, ?_, ?_⟩ <;>
    simp [getValueG, getValueRawG, saveG, iocRegistry, ht, h1, h2, errCount, mkErrLog]

/-- Witness for c4_unknown_backend at the stored type azure, which is not
registered: getValue yields null and save yields false, one error log
entry each. -/
theorem c4_unknown_backend_witness :
    (getValueG true (iocRegistry awsB0 mdbB0) (some fAzure) "k1" none).1 = none
    ∧ errCount (getValueG true (iocRegistry awsB0 mdbB0) (some fAzure) "k1" none).2 = 1
    ∧ (saveG true (iocRegistry awsB0 mdbB0) (some fAzure) "k1" (.str "x") none).1 = .ok false
    ∧ errCount (saveG true (iocRegistry awsB0 mdbB0) (some fAzure) "k1" (.str "x") none).2 = 1 :=
  c4_unknown_backend awsB0 mdbB0 fAzure "k1" (.str "x") none (by decide) (by decide) (by decide)

/-- Claim C6 counterexample: with the backend-type field wholly absent
from both the stored configuration and the override, the facade does not
dispatch to the aws backend: the try body throws the missing-type error,
getValue yields null and save yields false, although the registered aws
backend would have returned a value had it been dispatched to. -/
theorem c6_counterexample :
    (getValueRawG true (iocRegistry awsB0 mdbB0) (some fNoType) "k1" none).1
      = .error "SecretManager options or type is not defined."
    ∧ (getValueG true (iocRegistry awsB0 mdbB0) (some fNoType) "k1" none).1 = none
    ∧ (saveG true (iocRegistry awsB0 mdbB0) (some fNoType) "k1" (.str "v") none).1 = .ok false
    ∧ (awsB0.resolve "k1" (some (mergeTop (some fNoType) none))).1 = .ok (some (.str "AWSVAL")) :=
  ⟨rfl, rfl, rfl, rfl⟩

/-- Claim C6 amended: when the backend type is wholly absent from the
stored configuration, resolve and save fail the operation with a null or
false result instead of defaulting; the aws dispatch default applies only
when the stored type is present and truthy while the merged per-call type
is the empty string, in which case the try body dispatches to the
registered aws backend. -/
theorem c6_amended (awsB mdbB : BackendI) (f g ovE : SMOptions) (t k : String)
    (v : StoredValue)
    (h1 : f.type = some t) (h2 : t ≠ "")
    (h3 : ovE.type = some "")
    (h4 : truthyStr g.type = false) :
    getValueRawG true (iocRegistry awsB mdbB) (some f) k (some ovE)
      = awsB.resolve k (some (mergeTop (some f) (some ovE)))
    ∧ (getValueG true (iocRegistry awsB mdbB) (some g) k none).1 = none
    ∧ (saveG true (iocRegistry awsB mdbB) (some g) k v none).1 = .ok false := by
  refine ⟨?_, ?_, ?_⟩
  · simp [getValueRawG, iocRegistry, mergeTop, ovr, h1, h2, h3, truthyStr, jsOrD,
      show toLowerM "aws" = "aws" from rfl]
  · simp [getValueG, getValueRawG, h4]
  · simp [saveG, h4]

/-- Witness for c6_amended: a stored mdb type with an empty-string
override type dispatches to the registered aws backend, and a stored
configuration without a type yields null and false. -/
theorem c6_amended_witness :
    getValueRawG true (iocRegistry awsB0 mdbB0) (some fMdbT) "k1" (some ovEmptyType)
      = awsB0.resolve "k1" (some (mergeTop (some fMdbT) (some ovEmptyType)))
    ∧ (getValueG true (iocRegistry awsB0 mdbB0) (some fNoType) "k1" none).1 = none
    ∧ (saveG true (iocRegistry awsB0 mdbB0) (some fNoType) "k1" (.str "v") none).1 = .ok false :=
  c6_amended awsB0 mdbB0 fMdbT fNoType ovEmptyType "mdb" "k1" (.str "v")
    rfl (by decide) rfl (by decide)

theorem initClient_options {st st1 : MdbState} {o : Option SMOptions}
    (h : initClient st o = .ok st1) : st1.options = st.options := by
  unfold initClient at h
  split at h
  · exact absurd h (by simp)
  · split at h
    · exact absurd h (by simp)
    · simp only [Except.ok.injEq] at h
      subst h
      by_cases hcl : st.client = true <;> by_cases he : st.encryption.isSome = true <;>
        simp [hcl, he]

theorem doCreateDek_options (st : MdbState) (a : String) :
    (doCreateDek st a).2.options = st.options := by
  unfold doCreateDek
  split <;> rfl

theorem createDataKeyStep_options (st : MdbState) (o : Option SMOptions) (a : String) :
    (createDataKeyStep st o a).2.options = st.options := by
  simp only [createDataKeyStep]
  split
  · split
    · rfl
    · split
      · split
        · rfl
        · exact doCreateDek_options _ _
      · exact doCreateDek_options _ _
  · exact doCreateDek_options _ _

theorem createDataKey_options (st : MdbState) (o : Option SMOptions) (env : Env) :
    (createDataKey st o env).2.options = st.options := by
  simp only [createDataKey]
  split
  · rfl
  · rename_i altName hka
    rcases heq : createDataKeyStep st o altName with ⟨r, st1⟩
    have h2 := createDataKeyStep_options st o altName
    rw [heq] at h2
    cases r <;> simpa using h2

theorem mdbResolveBody_options (st : MdbState) (k : String) :
    (mdbResolveBody st k).2.options = st.options := by
  simp only [mdbResolveBody]
  split
  · rfl
  · rename_i o ho
    split
    · rfl
    · rename_i m hm
      rcases hic : initClient st (some o) with e | st1
      · rfl
      · have hopts := initClient_options hic
        dsimp only
        split
        · exact hopts
        · split
          · simpa using hopts
          · split
            · split
              · simpa using hopts
              · simpa using hopts
            · simpa using hopts

theorem mdbSaveBody_options (st : MdbState) (k v : String) (o : Option SMOptions) (env : Env) :
    (mdbSaveBody st k v o env).2.options = st.options := by
  simp only [mdbSaveBody]
  split
  · rfl
  · rename_i o2 ho
    split
    · rfl
    · rename_i m hm
      rcases hic : initClient st (some _) with e | st1
      · rfl
      · have hopts := initClient_options hic
        dsimp only
        split
        · exact hopts
        · split
          · simpa using hopts
          · rcases hck : createDataKey st1 o env with ⟨r, st2⟩
            have hopts2 : st2.options = st1.options := by
              have := createDataKey_options st1 o env
              rw [hck] at this
              exact this
            cases r <;> simp [hopts2, hopts]

/-- Claim C8 counterexample: a per-call override passed to the MongoDB
backend resolve does alter the stored configuration observed afterwards:
at an empty stored configuration and an override carrying an mdb
collection, the state after resolve holds the merged options, not the
original ones. -/
theorem c8_counterexample :
    (mdbResolve c8Base "k1" (some c8Ovr) envEmpty).2.options ≠ c8Base.options := by
  intro h
  have h2 : (mdbResolve c8Base "k1" (some c8Ovr) envEmpty).2.options
      = some (mergeTop c8Base.options (some c8Ovr)) := rfl
  rw [h] at h2
  exact absurd h2 (by decide)

/-- Claim C8 amended: the shared connection and encryption handles are not
the only shared mutable state of the MongoDB backend: a per-call override
passed to resolve or save is shallow-merged into the instance's stored
options and persists, so subsequent operations observe the merged
configuration. -/
theorem c8_amended (st : MdbState) (k vv : String) (o : SMOptions) (env : Env) :
    (mdbResolve st k (some o) env).2.options = some (mergeTop st.options (some o))
    ∧ (mdbSave st k vv (some o) env).2.options = some (mergeTop st.options (some o)) := by
  constructor
  · unfold mdbResolve
    rcases hb : mdbResolveBody { st with options := some (mergeTop st.options (some o)) } k
      with ⟨r, st1⟩
    have h1 : st1.options = some (mergeTop st.options (some o)) := by
      have := mdbResolveBody_options { st with options := some (mergeTop st.options (some o)) } k
      rw [hb] at this
      exact this
    simp only [hb]
    cases r <;> simpa using h1
  · unfold mdbSave
    rcases hb : mdbSaveBody { st with options := some (mergeTop st.options (some o)) } k vv
      (some o) env with ⟨r, st1⟩
    have h1 : st1.options = some (mergeTop st.options (some o)) := by
      have := mdbSaveBody_options { st with options := some (mergeTop st.options (some o)) } k vv
        (some o) env
      rw [hb] at this
      exact this
    simp only [hb]
    cases r <;> simpa using h1

/-- Witness: c8_amended has no proposition hypotheses; this closed
instance records the merged stored options after a resolve carrying an
override at a concrete state. -/
theorem c8_amended_witness :
    (mdbResolve c8Base "k1" (some c8Ovr) envEmpty).2.options
      = some (mergeTop c8Base.options (some c8Ovr))
    ∧ (mdbSave c8Base "k1" "v" (some c8Ovr) envEmpty).2.options
      = some (mergeTop c8Base.options (some c8Ovr)) :=
  c8_amended c8Base "k1" "v" c8Ovr envEmpty

theorem mdbSave_none_spec (st : MdbState) (o : SMOptions) (m : MdbOpt) (k v : String)
    (env : Env)
    (hst : st.options = some o) (hm : o.mdb = some m)
    (hu : truthyStr m.uri = true) (hcol : truthyStr m.collection = true) :
    (mdbSave st k v none env).1 = .ok true
    ∧ (mdbSave st k v none env).2.options = st.options
    ∧ (mdbSave st k v none env).2.encryption.isSome = true
    ∧ (mdbSave st k v none env).2.finds = st.finds
    ∧ (mdbSave st k v none env).2.created = st.created + 1
    ∧ ∃ kk i alg,
        findSecret ((mdbSave st k v none env).2.cols (mkNs m.database (m.collection.getD ""))) k
          = some ⟨kk, .cipher i alg v, true⟩ := by
  have hub : truthyStr (o.mdb.bind (fun x => x.uri)) = true := by simp [hm, hu]
  have hic := initClient_some_ok st o hub
  refine ⟨?_, ?_, ?_, ?_, ?_, ?_⟩ <;>
    simp [mdbSave, mdbSaveBody, hst, hm, hic, hcol, getKeyAlt, createDataKey,
      createDataKeyStep, doCreateDek, show truthyStr none = false from rfl]
  exact ⟨_, st.nextDek + 1, _, (findSecret_upsert _ _ _).choose_spec⟩

theorem resolve_after_upsert (st : MdbState) (o : SMOptions) (m : MdbOpt) (k p : String)
    (i : Nat) (alg kk : String) (env : Env)
    (hst : st.options = some o) (hm : o.mdb = some m)
    (hu : truthyStr m.uri = true) (hcol : truthyStr m.collection = true)
    (henc : st.encryption.isSome = true)
    (hfind : findSecret (st.cols (mkNs m.database (m.collection.getD ""))) k
        = some ⟨kk, .cipher i alg p, true⟩) :
    (mdbResolve st k none env).1 = .ok (some (.str p)) := by
  have hub : truthyStr (o.mdb.bind (fun x => x.uri)) = true := by simp [hm, hu]
  have hic := initClient_some_ok st o hub
  obtain ⟨e0, he0⟩ := Option.isSome_iff_exists.mp henc
  simp [mdbResolve, mdbResolveBody, hst, hm, hic, hcol, hfind, he0]

/-- Claim C1: save-then-resolve round trip on the document-store backend:
for every key and value, with the stored configuration carrying an mdb
target with a truthy uri and collection, saving through mdbSave succeeds
and resolving the same key through mdbResolve on the resulting state
returns exactly the saved value, the encryption applied on save undone by
the decryption on resolve. -/
theorem c1_save_then_resolve (st : MdbState) (o : SMOptions) (m : MdbOpt) (k v : String)
    (env : Env)
    (hst : st.options = some o) (hm : o.mdb = some m)
    (hu : truthyStr m.uri = true) (hcol : truthyStr m.collection = true) :
    (mdbSave st k v none env).1 = .ok true
    ∧ (mdbResolve (mdbSave st k v none env).2 k none env).1 = .ok (some (.str v)) := by
  obtain ⟨h1, h2, h3, h4, h5, kk, i, alg, h6⟩ := mdbSave_none_spec st o m k v env hst hm hu hcol
  exact ⟨h1, resolve_after_upsert _ o m k v i alg kk env (h2.trans hst) hm hu hcol h3 h6⟩

/-- Witness for c1_save_then_resolve at a concrete configuration: saving
the pair k1 and secret-value then resolving k1 returns secret-value. -/
theorem c1_save_then_resolve_witness :
    (mdbSave wState "k1" "secret-value" none envEmpty).1 = .ok true
    ∧ (mdbResolve (mdbSave wState "k1" "secret-value" none envEmpty).2 "k1" none envEmpty).1
      = .ok (some (.str "secret-value")) :=
  c1_save_then_resolve wState wOpts wMdb "k1" "secret-value" envEmpty rfl rfl
    (by decide) (by decide)

/-- Claim C3: resolving a key never saved: the document-store backend
resolve returns a null value, not an error, and the facade composition
falls back to the environment variable literally named by the key, so an
unset variable makes the facade resolve return null. -/
theorem c3_unsaved_key (f : SMOptions) (m : MdbOpt) (mst : MdbState) (k : String) (env : Env)
    (htype : f.type = some "mdb")
    (hmf : f.mdb = some m)
    (hu : truthyStr m.uri = true) (hcol : truthyStr m.collection = true)
    (habs : ∀ d ∈ (mst.cols (mkNs m.database (m.collection.getD ""))).secrets, d.key ≠ k) :
    (mdbResolve mst k (some f) env).1 = .ok none
    ∧ (facadeResolveMdb true (some f) mst k none env).1 = (env k).map StoredValue.str := by
  have ho2 : (mergeTop mst.options (some f)).mdb = some m := by
    simp [mergeTop, ovr, hmf]
  have hub : truthyStr ((mergeTop mst.options (some f)).mdb.bind (fun x => x.uri)) = true := by
    simp [ho2, hu]
  have hic := initClient_some_ok
    { mst with options := some (mergeTop mst.options (some f)) }
    (mergeTop mst.options (some f)) hub
  have hfind : findSecret (mst.cols (mkNs m.database (m.collection.getD ""))) k = none := by
    simp only [findSecret]
    apply List.find?_eq_none.mpr
    intro x hx hpx
    exact habs x hx (by simpa using hpx)
  have hback : (mdbResolve mst k (some f) env).1 = .ok none := by
    simp [mdbResolve, mdbResolveBody, ho2, hic, hcol, hfind]
  refine ⟨hback, ?_⟩
  rcases hres : mdbResolve mst k (some f) env with ⟨r, mst1⟩
  rw [hres] at hback
  simp only at hback
  subst hback
  simp [facadeResolveMdb, facadeGetValueMdb, mergeTop_some_none, htype, hres,
    show truthyStr (some "mdb") = true from rfl,
    show toLowerM (jsOrD (some "mdb") "aws") = "mdb" from by decide]

/-- Witness for c3_unsaved_key at a concrete configuration with an empty
collection and an empty environment: the backend yields null and the
facade resolve yields null. -/
theorem c3_unsaved_key_witness :
    (mdbResolve wState "nokey" (some wOpts) envEmpty).1 = .ok none
    ∧ (facadeResolveMdb true (some wOpts) wState "nokey" none envEmpty).1 = none :=
  c3_unsaved_key wOpts wMdb wState "nokey" envEmpty rfl rfl (by decide) (by decide)
    (by intro d hd; simp [wState] at hd)

theorem createDataKey_found (st : MdbState) (o : SMOptions) (m : MdbOpt)
    (d c alt : String) (env : Env) (dk : DekDoc)
    (hm : o.mdb = some m) (hd : m.database = some d) (hdne : d ≠ "")
    (hc : m.collection = some c) (hcne : c ≠ "")
    (hcl : st.client = true)
    (halt : getKeyAlt st (some o) env = .ok alt)
    (hfd : findDek (st.cols (mkNs (some d) c)) alt = some dk)
    (hid : dk.id ≠ 0) :
    createDataKey st (some o) env =
      (.ok dk.id,
       { st with
          finds := st.finds + 1
          logs := st.logs ++ [mkWarnLog "Secret:Service:MDB:createDataKey" "Create Data Key"] }) := by
  have hbd : truthyStr (some d) = true := by simp [truthyStr]; exact hdne
  have hbc : truthyStr (some c) = true := by simp [truthyStr]; exact hcne
  simp [createDataKey, halt, createDataKeyStep, hm, hd, hc, hbd, hbc, hcl, hfd, hid]

theorem createDataKey_notfound (st : MdbState) (o : SMOptions) (m : MdbOpt)
    (d c alt : String) (env : Env)
    (hm : o.mdb = some m) (hd : m.database = some d) (hdne : d ≠ "")
    (hc : m.collection = some c) (hcne : c ≠ "")
    (hcl : st.client = true) (he : st.encryption = some (mkNs (some d) c))
    (halt : getKeyAlt st (some o) env = .ok alt)
    (hfd : findDek (st.cols (mkNs (some d) c)) alt = none) :
    createDataKey st (some o) env =
      (.ok (st.nextDek + 1),
       { st with
          nextDek := st.nextDek + 1
          created := st.created + 1
          finds := st.finds + 1
          cols := fun n =>
            if n = mkNs (some d) c then
              { secrets := (st.cols (mkNs (some d) c)).secrets,
                deks := (st.cols (mkNs (some d) c)).deks ++ [⟨st.nextDek + 1, [alt]⟩] }
            else st.cols n
          logs := st.logs ++ [mkWarnLog "Secret:Service:MDB:createDataKey" "Create Data Key"] }) := by
  have hbd : truthyStr (some d) = true := by simp [truthyStr]; exact hdne
  have hbc : truthyStr (some c) = true := by simp [truthyStr]; exact hcne
  simp [createDataKey, halt, createDataKeyStep, doCreateDek, hm, hd, hc, hbd, hbc,
    hcl, hfd, he]

/-- Claim C7: calling createDataKey twice in sequence for the same
alternate name, with the same database and collection configured in the
per-call options and the encryption handle addressing that namespace,
returns the same key identifier both times, performs the existing-key
query on each call before any creation, performs at most one creation
across the two calls, and performs none at all when a key document with
that alternate name already exists. -/
theorem c7_create_data_key_idempotent (st : MdbState) (o : SMOptions) (m : MdbOpt)
    (d c alt : String) (env : Env)
    (hm : o.mdb = some m) (hd : m.database = some d) (hdne : d ≠ "")
    (hc : m.collection = some c) (hcne : c ≠ "")
    (hcl : st.client = true) (he : st.encryption = some (mkNs (some d) c))
    (halt : getKeyAlt st (some o) env = .ok alt)
    (hvault : ∀ dk ∈ (st.cols (mkNs (some d) c)).deks, dk.id ≠ 0) :
    (∃ i, (createDataKey st (some o) env).1 = .ok i
        ∧ (createDataKey (createDataKey st (some o) env).2 (some o) env).1 = .ok i)
    ∧ (createDataKey st (some o) env).2.finds = st.finds + 1
    ∧ (createDataKey (createDataKey st (some o) env).2 (some o) env).2.created ≤ st.created + 1
    ∧ ((∃ dk ∈ (st.cols (mkNs (some d) c)).deks, alt ∈ dk.keyAltNames) →
        (createDataKey (createDataKey st (some o) env).2 (some o) env).2.created = st.created) := by
  rcases hfd : findDek (st.cols (mkNs (some d) c)) alt with _ | dk
  · have h1 := createDataKey_notfound st o m d c alt env hm hd hdne hc hcne hcl he halt hfd
    rw [h1]
    have hn : List.find? (fun dk => decide (alt ∈ dk.keyAltNames))
        (st.cols (mkNs (some d) c)).deks = none := by simpa [findDek] using hfd
    have hfdC : findDek
        { secrets := (st.cols (mkNs (some d) c)).secrets,
          deks := (st.cols (mkNs (some d) c)).deks ++ [⟨st.nextDek + 1, [alt]⟩] } alt
        = some ⟨st.nextDek + 1, [alt]⟩ := by
      simp only [findDek]
      rw [List.find?_append, hn]
      simpa using List.find?_cons_of_pos (l := []) _ (by simp)
    have hfd1 :
        findDek
          (({ st with
              nextDek := st.nextDek + 1
              created := st.created + 1
              finds := st.finds + 1
              cols := fun n =>
                if n = mkNs (some d) c then
                  { secrets := (st.cols (mkNs (some d) c)).secrets,
                    deks := (st.cols (mkNs (some d) c)).deks ++ [⟨st.nextDek + 1, [alt]⟩] }
                else st.cols n
              logs := st.logs ++ [mkWarnLog "Secret:Service:MDB:createDataKey" "Create Data Key"]
            } : MdbState).cols (mkNs (some d) c)) alt
        = some ⟨st.nextDek + 1, [alt]⟩ := by
      rw [show ({ st with
              nextDek := st.nextDek + 1
              created := st.created + 1
              finds := st.finds + 1
              cols := fun n =>
                if n = mkNs (some d) c then
                  { secrets := (st.cols (mkNs (some d) c)).secrets,
                    deks := (st.cols (mkNs (some d) c)).deks ++ [⟨st.nextDek + 1, [alt]⟩] }
                else st.cols n
              logs := st.logs ++ [mkWarnLog "Secret:Service:MDB:createDataKey" "Create Data Key"]
            } : MdbState).cols (mkNs (some d) c)
          = { secrets := (st.cols (mkNs (some d) c)).secrets,
              deks := (st.cols (mkNs (some d) c)).deks ++ [⟨st.nextDek + 1, [alt]⟩] }
        from if_pos rfl]
      exact hfdC
    have h2 := createDataKey_found
      { st with
          nextDek := st.nextDek + 1
          created := st.created + 1
          finds := st.finds + 1
          cols := fun n =>
            if n = mkNs (some d) c then
              { secrets := (st.cols (mkNs (some d) c)).secrets,
                deks := (st.cols (mkNs (some d) c)).deks ++ [⟨st.nextDek + 1, [alt]⟩] }
            else st.cols n
          logs := st.logs ++ [mkWarnLog "Secret:Service:MDB:createDataKey" "Create Data Key"] }
      o m d c alt env ⟨st.nextDek + 1, [alt]⟩ hm hd hdne hc hcne hcl halt hfd1
      (Nat.succ_ne_zero _)
    rw [h2]
    refine ⟨⟨st.nextDek + 1, rfl, rfl⟩, rfl, Nat.le_refl _, ?_⟩
    rintro ⟨dk, hdk, hcont⟩
    have hnone : ∀ x ∈ (st.cols (mkNs (some d) c)).deks, alt ∉ x.keyAltNames := by
      simpa [findDek] using hfd
    exact absurd hcont (hnone dk hdk)
  · have hmem : dk ∈ (st.cols (mkNs (some d) c)).deks := by
      have hs : List.find? (fun dk => decide (alt ∈ dk.keyAltNames))
          (st.cols (mkNs (some d) c)).deks = some dk := by simpa [findDek] using hfd
      exact List.mem_of_find?_eq_some hs
    have hid : dk.id ≠ 0 := hvault dk hmem
    have h1 := createDataKey_found st o m d c alt env dk hm hd hdne hc hcne hcl halt hfd hid
    rw [h1]
    have h2 := createDataKey_found
      { st with
          finds := st.finds + 1
          logs := st.logs ++ [mkWarnLog "Secret:Service:MDB:createDataKey" "Create Data Key"] }
      o m d c alt env dk hm hd hdne hc hcne hcl halt hfd hid
    rw [h2]
    exact ⟨⟨dk.id, rfl, rfl⟩, rfl, Nat.le_succ _, fun _ => rfl⟩

/-- Witness for c7_create_data_key_idempotent at a vault already holding
a key document for the alternate name: both calls return the stored id 7
and no creation happens. -/
theorem c7_create_data_key_idempotent_witness :
    (∃ i, (createDataKey wStateVault (some wOpts) envEmpty).1 = .ok i
        ∧ (createDataKey (createDataKey wStateVault (some wOpts) envEmpty).2
            (some wOpts) envEmpty).1 = .ok i)
    ∧ (createDataKey (createDataKey wStateVault (some wOpts) envEmpty).2
        (some wOpts) envEmpty).2.created = wStateVault.created := by
  obtain ⟨h1, h2, h3, h4⟩ := c7_create_data_key_idempotent wStateVault wOpts wMdb
    "d" "c" "d-c.alt" envEmpty rfl rfl (by decide) rfl (by decide) rfl rfl
    rfl (by decide)
  exact ⟨h1, h4 (by decide)⟩

/-- Claim C10: when the document-store backend save is invoked with the
per-call options argument omitted, the key-ensuring step skips the
existing-key query entirely (the findOne counter is unchanged) and
requests creation of a new data-encryption key (the creation counter
grows by one), even when a key document with the same alternate name
already exists in the vault namespace held by the encryption handle. -/
theorem c10_save_without_options_always_creates (st : MdbState) (o : SMOptions) (m : MdbOpt)
    (k v alt vns : String) (env : Env)
    (hst : st.options = some o) (hm : o.mdb = some m)
    (hu : truthyStr m.uri = true) (hcol : truthyStr m.collection = true)
    (he : st.encryption = some vns)
    (halt : getKeyAlt st none env = .ok alt)
    (hex : ∃ dk ∈ (st.cols vns).deks, alt ∈ dk.keyAltNames) :
    (mdbSave st k v none env).1 = .ok true
    ∧ (mdbSave st k v none env).2.finds = st.finds
    ∧ (mdbSave st k v none env).2.created = st.created + 1 := by
  obtain ⟨h1, _, _, h4, h5, _⟩ := mdbSave_none_spec st o m k v env hst hm hu hcol
  exact ⟨h1, h4, h5⟩

/-- Witness for c10_save_without_options_always_creates at a vault that
already holds a key document for the derived alternate name: the save
still creates a fresh key and performs no query. -/
theorem c10_save_without_options_always_creates_witness :
    (mdbSave wStateVault "k1" "v1" none envEmpty).1 = .ok true
    ∧ (mdbSave wStateVault "k1" "v1" none envEmpty).2.finds = wStateVault.finds
    ∧ (mdbSave wStateVault "k1" "v1" none envEmpty).2.created = wStateVault.created + 1 :=
  c10_save_without_options_always_creates wStateVault wOpts wMdb "k1" "v1" "d-c.alt" "d.c"
    envEmpty rfl rfl (by decide) (by decide) rfl rfl (by decide)

end KozenSecret
